import Mathlib

/-!
Shallow embedding of the forensic-archive agent (two variants: the minimal
agent in forensic_archive_agent.py and the optimized agent in
forensic_archive_optimized.py / forensic_part2_optimized.py).

Conventions of the embedding:
* Python strings are `String` / `List Char`; `str.lower()` is `pyLower`
  (covering ASCII and the Cyrillic ranges used by the sources).
* The sqlite table `expertise_cases` is a list of records in insertion
  order; `fetchone` of an unordered `SELECT` is the first matching row.
* The file system is a list of `(path, content-id)` pairs; `shutil.copy2`
  writes the source content id at the destination path (replacing any
  previous entry, like the real call, which overwrites).
* Fallible I/O (copy errors, sqlite storage errors) is modelled by
  explicit `Option String` oracles carrying the exception text; `None`
  means the call succeeds.
* The Python regexes of the parsers are transcribed into a small regex
  AST (`RE`) evaluated by a fuel-bounded backtracking matcher with
  `re.search` semantics: leftmost match position, greedy / lazy
  quantifier preference, capture groups.
-/

namespace ForensicArchive

/-- Python `str.lower` restricted to the alphabets appearing in the
sources: ASCII A-Z, the Cyrillic base range А-Я (U+0410..U+042F), the
range Ѐ-Џ (U+0400..U+040F, containing Є, І, Ї) and Ґ (U+0490). -/
def pyLower (c : Char) : Char :=
  let n := c.toNat
  if 65 ≤ n ∧ n ≤ 90 then Char.ofNat (n + 32)
  else if 0x410 ≤ n ∧ n ≤ 0x42F then Char.ofNat (n + 0x20)
  else if 0x400 ≤ n ∧ n ≤ 0x40F then Char.ofNat (n + 0x50)
  else if n = 0x490 then Char.ofNat 0x491
  else c

/-- Lowercase a whole character list (Python `text.lower()`). -/
def lowerStr (s : List Char) : List Char := s.map pyLower

/-- The characters matched by Python `\s` (ASCII portion). -/
def isPyWS (c : Char) : Bool :=
  c == ' ' || c == '\t' || c == '\n' || c == '\r' ||
  c == Char.ofNat 11 || c == Char.ofNat 12

/-- Python substring test `kw in s`. -/
def isSubstr (kw : List Char) : List Char → Bool
  | [] => kw.isEmpty
  | c :: rest => kw.isPrefixOf (c :: rest) || isSubstr kw rest

/-- Auxiliary scanner for `str.count` (fuel-bounded; the fuel
`s.length` is always sufficient because every step consumes at least
one character). -/
def countSubAux (kw : List Char) : Nat → List Char → Nat
  | 0, _ => 0
  | fuel + 1, s =>
    match s with
    | [] => 0
    | _ :: rest =>
      if kw.isPrefixOf s then 1 + countSubAux kw fuel (s.drop kw.length)
      else countSubAux kw fuel rest

/-- Python `s.count(kw)`: number of non-overlapping occurrences. -/
def countSub (kw s : List Char) : Nat :=
  if kw.isEmpty then s.length + 1 else countSubAux kw s.length s

/-- Python `str.strip()` (whitespace trim at both ends). -/
def pyStrip (s : List Char) : List Char :=
  ((s.dropWhile isPyWS).reverse.dropWhile isPyWS).reverse

/-- Numeric value of a digit string (Python `int` on a digit token). -/
def natOfDigits (s : List Char) : Nat :=
  s.foldl (fun acc c => acc * 10 + (c.toNat - 48)) 0

/-- Regular-expression AST covering the constructs used by the
sources: character classes, sequencing, alternation, greedy and lazy
star, capture groups. -/
inductive RE where
  | eps : RE
  | cls : (Char → Bool) → RE
  | seq : RE → RE → RE
  | alt : RE → RE → RE
  | star : RE → RE
  | lazyStar : RE → RE
  | grp : Nat → RE → RE

/-- Capture bindings: group index paired with the captured characters. -/
abbrev Caps := List (Nat × List Char)

/-- Backtracking matcher in continuation-passing style.  Alternatives
are tried left first, `star` prefers consuming (greedy), `lazyStar`
prefers not consuming, exactly like Python `re`.  The fuel only bounds
the recursion; it is chosen large enough for every evaluation. -/
def reM : Nat → RE → List Char → Caps →
    (List Char → Caps → Option (List Char × Caps)) → Option (List Char × Caps)
  | 0, _, _, _, _ => none
  | fuel + 1, r, s, caps, k =>
    match r with
    | .eps => k s caps
    | .cls p =>
      match s with
      | [] => none
      | c :: rest => if p c then k rest caps else none
    | .seq a b => reM fuel a s caps (fun s2 caps2 => reM fuel b s2 caps2 k)
    | .alt a b =>
      match reM fuel a s caps k with
      | some res => some res
      | none => reM fuel b s caps k
    | .star a =>
      match reM fuel a s caps (fun s2 caps2 =>
          if s2.length < s.length then reM fuel (.star a) s2 caps2 k else none) with
      | some res => some res
      | none => k s caps
    | .lazyStar a =>
      match k s caps with
      | some res => some res
      | none =>
        reM fuel a s caps (fun s2 caps2 =>
          if s2.length < s.length then reM fuel (.lazyStar a) s2 caps2 k else none)
    | .grp n a =>
      reM fuel a s caps (fun s2 caps2 =>
        k s2 ((n, s.take (s.length - s2.length)) :: caps2))

/-- Attempt a match anchored at the start of `s`, returning the rest of
the input after the match together with the captures. -/
def reTry (r : RE) (s : List Char) : Option (List Char × Caps) :=
  reM ((s.length + 80) * (s.length + 80)) r s [] (fun s2 caps => some (s2, caps))

/-- Python `re.search`: try successive start positions left to right. -/
def reSearch (r : RE) : List Char → Option (List Char × Caps)
  | [] => reTry r []
  | c :: rest =>
    match reTry r (c :: rest) with
    | some res => some res
    | none => reSearch r rest

/-- Boolean form of `re.search`. -/
def searchB (r : RE) (s : List Char) : Bool := (reSearch r s).isSome

/-- Extract a capture group from a search result (`match.group(n)`). -/
def capGroup (n : Nat) (res : Option (List Char × Caps)) : Option (List Char) :=
  match res with
  | none => none
  | some (_, caps) =>
    match caps.find? (fun pr => pr.1 == n) with
    | some pr => some pr.2
    | none => none

/-- Auxiliary loop for `len(re.findall(r, s))`: count successive
non-overlapping matches, continuing after the end of each match. -/
def findallAux (r : RE) : Nat → List Char → Nat
  | 0, _ => 0
  | fuel + 1, s =>
    match reSearch r s with
    | none => 0
    | some (rest, _) =>
      if rest.length < s.length then 1 + findallAux r fuel rest
      else
        match s with
        | [] => 1
        | _ :: tail => 1 + findallAux r fuel tail

/-- Python `len(re.findall(r, s))`. -/
def findallCount (r : RE) (s : List Char) : Nat := findallAux r (s.length + 1) s

/-- A single exact character. -/
def chE (a : Char) : RE := .cls (fun c => c == a)

/-- A single character compared case-insensitively (re.IGNORECASE). -/
def chCI (a : Char) : RE := .cls (fun c => pyLower c == pyLower a)

/-- Literal string, case-sensitive. -/
def litS (w : String) : RE := w.toList.foldr (fun c r => .seq (chE c) r) .eps

/-- Literal string under re.IGNORECASE. -/
def litCI (w : String) : RE := w.toList.foldr (fun c r => .seq (chCI c) r) .eps

/-- Sequence of a list of regexes. -/
def seqL (rs : List RE) : RE := rs.foldr .seq .eps

/-- Python regex `\s*`. -/
def ws0 : RE := .star (.cls isPyWS)

/-- Python regex `p+` for a character class. -/
def plusP (p : Char → Bool) : RE := .seq (.cls p) (.star (.cls p))

/-- Exactly `n` repetitions of a character class. -/
def repN (p : Char → Bool) : Nat → RE
  | 0 => .eps
  | n + 1 => .seq (.cls p) (repN p n)

/-- Python regex `p{1,2}` (greedy: two repetitions preferred). -/
def rep12 (p : Char → Bool) : RE := .alt (.seq (.cls p) (.cls p)) (.cls p)

/-- Python regex `p{11,12}` (greedy: twelve preferred). -/
def rep1112 (p : Char → Bool) : RE := .alt (repN p 12) (repN p 11)

/-- Python regex `.` outside DOTALL mode: any character except newline. -/
def dotAny (c : Char) : Bool := c != '\n'

/-- Digit class `\d` (ASCII digits, as in the texts at hand). -/
def isDigitC (c : Char) : Bool := c.isDigit

/-- Character class regex `[^\s,\n\.]`. -/
def notSpComDot (c : Char) : Bool := !(isPyWS c || c == ',' || c == '.')

/-- Character class regex `[^,\n\.]`. -/
def notComDotNl (c : Char) : Bool := !(c == ',' || c == '\n' || c == '.')

/-- Character class `[А-Я]` under re.IGNORECASE: the Cyrillic base
range in either case. -/
def cyrUpperCI (c : Char) : Bool :=
  (0x410 ≤ c.toNat && c.toNat ≤ 0x42F) || (0x430 ≤ c.toNat && c.toNat ≤ 0x44F)

/-! Field parser of the minimal agent
(`ForensicArchiveAgent.parse_expertise_document`,
forensic_archive_agent.py).  Each Python pattern is transcribed into an
`RE` value; the pattern lists keep the source order and the loops keep
the first-valid-match-wins control flow. -/

/-- The character `№` as a regex atom. -/
def numSign : RE := chE '№'

/-- Agent ЄРДР pattern 1: `№\s*ЄРДР\s*([^\s,\n\.]+)` (IGNORECASE). -/
def erddrPat1 : RE :=
  seqL [numSign, ws0, litCI "ЄРДР", ws0, .grp 1 (plusP notSpComDot)]

/-- Agent ЄРДР pattern 2: `ЄРДР\s*№?\s*([^\s,\n\.]+)` (IGNORECASE). -/
def erddrPat2 : RE :=
  seqL [litCI "ЄРДР", ws0, .alt numSign .eps, ws0, .grp 1 (plusP notSpComDot)]

/-- Agent ЄРДР pattern 3: `кримінальному провадженню\s*№\s*([^\s,\n\.]+)`. -/
def erddrPat3 : RE :=
  seqL [litCI "кримінальному провадженню", ws0, numSign, ws0, .grp 1 (plusP notSpComDot)]

/-- Agent ЄРДР pattern 4: `провадження\s*№\s*([^\s,\n\.]+)`. -/
def erddrPat4 : RE :=
  seqL [litCI "провадження", ws0, numSign, ws0, .grp 1 (plusP notSpComDot)]

/-- Agent ЄРДР pattern 5: `справі\s*№\s*([^\s,\n\.]+)`. -/
def erddrPat5 : RE :=
  seqL [litCI "справі", ws0, numSign, ws0, .grp 1 (plusP notSpComDot)]

/-- The agent's ЄРДР pattern list, in source order. -/
def agentErddrPatterns : List RE :=
  [erddrPat1, erddrPat2, erddrPat3, erddrPat4, erddrPat5]

/-- Agent expertise-number pattern 1: `№\s*(\d+/\d+[А-Я]+-\d+)`. -/
def expPat1 : RE :=
  seqL [numSign, ws0, .grp 1 (seqL [plusP isDigitC, chE '/', plusP isDigitC,
    plusP cyrUpperCI, chE '-', plusP isDigitC])]

/-- Agent expertise-number pattern 2: `експертиза\s*№\s*([^\s,\n\.]+)`. -/
def expPat2 : RE :=
  seqL [litCI "експертиза", ws0, numSign, ws0, .grp 1 (plusP notSpComDot)]

/-- Agent expertise-number pattern 3: `висновок\s*№\s*([^\s,\n\.]+)`. -/
def expPat3 : RE :=
  seqL [litCI "висновок", ws0, numSign, ws0, .grp 1 (plusP notSpComDot)]

/-- Agent expertise-number pattern 4: `висновок.*?№\s*([^\s,\n\.]+)` (lazy dot-star). -/
def expPat4 : RE :=
  seqL [litCI "висновок", .lazyStar (.cls dotAny), numSign, ws0, .grp 1 (plusP notSpComDot)]

/-- Agent expertise-number pattern 5: `№\s*([^,\n\.]*\d+[^,\n\.]*)`. -/
def expPat5 : RE :=
  seqL [numSign, ws0, .grp 1 (seqL [.star (.cls notComDotNl), plusP isDigitC,
    .star (.cls notComDotNl)])]

/-- The agent's expertise-number pattern list, in source order. -/
def agentExpPatterns : List RE := [expPat1, expPat2, expPat3, expPat4, expPat5]

/-- Agent date pattern 1: `(\d{1,2}\.\d{1,2}\.(\d{4}))` — group 1 is the
whole date, group 2 the year. -/
def datePat1 : RE :=
  .grp 1 (seqL [rep12 isDigitC, chE '.', rep12 isDigitC, chE '.',
    .grp 2 (repN isDigitC 4)])

/-- Agent date pattern 2: `(\d{1,2}\/\d{1,2}\/(\d{4}))`. -/
def datePat2 : RE :=
  .grp 1 (seqL [rep12 isDigitC, chE '/', rep12 isDigitC, chE '/',
    .grp 2 (repN isDigitC 4)])

/-- Agent date pattern 3: `від\s*(\d{1,2}\.\d{1,2}\.(\d{4}))`. -/
def datePat3 : RE := seqL [litS "від", ws0, datePat1]

/-- The agent's date pattern list, in source order. -/
def agentDatePatterns : List RE := [datePat1, datePat2, datePat3]

/-- Agent bare-year fallback pattern `20(\d{2})`. -/
def bareYearPat : RE := seqL [litS "20", .grp 1 (repN isDigitC 2)]

/-- Strip leading and trailing non-digit characters
(`re.sub(r'^[^\d]*|[^\d]*$', '', erddr)`). -/
def stripNonDigitEdges (s : List Char) : List Char :=
  ((s.dropWhile (fun c => !c.isDigit)).reverse.dropWhile (fun c => !c.isDigit)).reverse

/-- ЄРДР pattern loop: first pattern whose stripped capture has at
least 8 characters wins; otherwise the field stays empty. -/
def agentErddrScan : List RE → List Char → String
  | [], _ => ""
  | p :: rest, s =>
    match capGroup 1 (reSearch p s) with
    | some raw =>
      let cleaned := stripNonDigitEdges (pyStrip raw)
      if 8 ≤ cleaned.length then String.mk cleaned else agentErddrScan rest s
    | none => agentErddrScan rest s

/-- Expertise-number pattern loop: first capture containing a digit and
longer than 3 characters wins. -/
def agentNumberScan : List RE → List Char → String
  | [], _ => ""
  | p :: rest, s =>
    match capGroup 1 (reSearch p s) with
    | some raw =>
      let num := pyStrip raw
      if num.any (fun c => c.isDigit) && 3 < num.length then String.mk num
      else agentNumberScan rest s
    | none => agentNumberScan rest s

/-- Date pattern loop: on the first matching pattern, group 1 becomes
the date string and group 2 (as an integer) the year. -/
def agentDateScan : List RE → List Char → Option (String × Nat)
  | [], _ => none
  | p :: rest, s =>
    match reSearch p s with
    | some (_, caps) =>
      match caps.find? (fun pr => pr.1 == 1), caps.find? (fun pr => pr.1 == 2) with
      | some g1, some g2 => some (String.mk g1.2, natOfDigits g2.2)
      | _, _ => agentDateScan rest s
    | none => agentDateScan rest s

/-- Bare-year fallback: `re.search(r'20(\d{2})', text)`, accepted when
the resulting year lies in 2000..2030, otherwise the previous year
value is kept. -/
def agentBareYear (text : List Char) (year0 : Option Nat) : Option Nat :=
  match capGroup 1 (reSearch bareYearPat text) with
  | some g =>
    let y := 2000 + natOfDigits g
    if 2000 ≤ y ∧ y ≤ 2030 then some y else year0
  | none => year0

/-- Year resolution after the date loop: the bare-year fallback runs
when the year is Python-falsy (absent or zero). -/
def agentYear (text : List Char) (year0 : Option Nat) : Option Nat :=
  match year0 with
  | some y => if y == 0 then agentBareYear text year0 else year0
  | none => agentBareYear text year0

/-! Type classifier of the minimal agent
(`ForensicArchiveAgent.determine_expertise_type`).  Keywords are Python
regexes searched in the lowercased text; three of them contain `.*`. -/

/-- Keyword regex of the form `a.*b` (greedy dot-star between two
literals). -/
def reDotStar (a b : String) : RE := .seq (litS a) (.seq (.star (.cls dotAny)) (litS b))

/-- Weighted keywords of category "зброї" (weight 10). -/
def zbroyaKws : List RE :=
  [litS "зброя", litS "пістолет", litS "автомат", litS "ніж", litS "холодна зброя",
   litS "вогнепальна", litS "куля", litS "гільза", litS "балісти", litS "постріл",
   litS "набій", litS "патрон", litS "ствол"]

/-- Weighted keywords of category "трасологічна" (weight 8). -/
def trasolKws : List RE :=
  [litS "трасол", litS "слід", litS "відбиток", litS "папіляр", litS "взуття",
   litS "шини", litS "транспорт", litS "колесо", litS "протектор",
   litS "механоскопі", litS "замок", litS "ключ"]

/-- Weighted keywords of category "дактилоскопічна" (weight 9). -/
def daktyloKws : List RE :=
  [litS "дактило", litS "палець", litS "папіляр", litS "відбиток пальц",
   litS "дерматогліф"]

/-- Weighted keywords of category "почеркознавча" (weight 7). -/
def pocherkKws : List RE :=
  [litS "почерк", litS "підпис", litS "рукопис", litS "письмо", litS "графолог",
   reDotStar "ідентифік" "підпис"]

/-- Weighted keywords of category "бал. облік" (weight 6). -/
def balOblikKws : List RE :=
  [reDotStar "куля" "облік", reDotStar "гільза" "облік", litS "балістичний облік",
   reDotStar "ідентифік" "куля"]

/-- The agent's weighted keyword table, in the dictionary insertion
order of the source. -/
def agentWeightedTable : List (String × List RE × Nat) :=
  [("зброї", zbroyaKws, 10), ("трасологічна", trasolKws, 8),
   ("дактилоскопічна", daktyloKws, 9), ("почеркознавча", pocherkKws, 7),
   ("бал. облік", balOblikKws, 6)]

/-- Score of one category: for every keyword found in the lowered
text, add the category weight plus 2 per occurrence beyond the first. -/
def kwSetScore (low : List Char) (kws : List RE) (w : Nat) : Nat :=
  kws.foldl (fun acc kw =>
    if searchB kw low then acc + w + (findallCount kw low - 1) * 2 else acc) 0

/-- The `type_scores` dictionary: categories with a positive score, in
table order. -/
def agentBaseScores (low : List Char) : List (String × Nat) :=
  (agentWeightedTable.map (fun e => (e.1, kwSetScore low e.2.1 e.2.2))).filter
    (fun e => 0 < e.2)

/-- Trace-evidence context indicators used by the disambiguation step. -/
def trasolIndicators : List String :=
  ["слід", "відбиток", "взуття", "шини", "механоскопі", "замок"]

/-- Weapons context indicators used by the disambiguation step. -/
def weaponsIndicators : List String :=
  ["постріл", "вогнепальна", "ствол", "набій"]

/-- Count of indicator words present in the lowered text
(`sum(1 for ind in indicators if ind in text_lower)`). -/
def indicatorCount (inds : List String) (low : List Char) : Nat :=
  (inds.filter (fun w => isSubstr w.toList low)).length

/-- Score lookup in the score list (Python dict access). -/
def scoreOf (scores : List (String × Nat)) (k : String) : Option Nat :=
  (scores.find? (fun e => e.1 == k)).map (fun e => e.2)

/-- Add the disambiguation bonus of 5 to one category. -/
def bump5 : List (String × Nat) → String → List (String × Nat)
  | [], _ => []
  | e :: rest, k => (if e.1 == k then (e.1, e.2 + 5) else e) :: bump5 rest k

/-- Scores after the weapons / trace-evidence disambiguation step: when
both categories scored, the one with more context indicators receives
+5, ties going to "зброї". -/
def agentFinalScores (low : List Char) : List (String × Nat) :=
  let base := agentBaseScores low
  if (scoreOf base "трасологічна").isSome && (scoreOf base "зброї").isSome then
    if indicatorCount weaponsIndicators low < indicatorCount trasolIndicators low then
      bump5 base "трасологічна"
    else bump5 base "зброї"
  else base

/-- Python `max(d, key=d.get)`: first key attaining the maximum, in
insertion order. -/
def argmaxGo (best : String × Nat) : List (String × Nat) → String × Nat
  | [] => best
  | e :: rest => argmaxGo (if best.2 < e.2 then e else best) rest

/-- First maximal entry of a score list, if any. -/
def argmaxFirst : List (String × Nat) → Option String
  | [] => none
  | e :: rest => some (argmaxGo e rest).1

/-- The agent's type classifier `determine_expertise_type`. -/
def determineExpertiseType (text : List Char) : String :=
  let low := lowerStr text
  match argmaxFirst (agentFinalScores low) with
  | some t => t
  | none => "невизначено"

/-- Sector-code to expected-type mapping of
`determine_expertise_type_by_sector`. -/
def sectorTypeMapping : List (String × String) :=
  [("почерк та ТЕД", "почеркознавча"), ("балісти", "зброї"),
   ("трасологія", "трасологічна"), ("дактилоскопія", "дактилоскопічна"),
   ("бал. облік", "бал. облік")]

/-- Association lookup on a string map (Python `dict.get`). -/
def lookupStr (m : List (String × String)) (k : String) : Option String :=
  (m.find? (fun e => e.1 == k)).map (fun e => e.2)

/-- The agent's `determine_expertise_type_by_sector`: the general
classification is corrected towards the sector's expected type; a real
conflict is annotated with " (авто)". -/
def determineExpertiseTypeBySector (text : List Char) (sectorCode : String) : String :=
  let generalType := determineExpertiseType text
  if generalType == "невизначено" || (lookupStr sectorTypeMapping sectorCode).isSome then
    let sectorType := (lookupStr sectorTypeMapping sectorCode).getD generalType
    if generalType != "невизначено" then
      match lookupStr sectorTypeMapping sectorCode with
      | some expected =>
        if generalType != expected then expected ++ " (авто)" else sectorType
      | none => sectorType
    else sectorType
  else generalType

/-- Output record of the agent's `parse_expertise_document` (absent
string fields are the empty string, as in the source dict). -/
structure AgentParsed where
  erddr : String
  number : String
  date : String
  year : Option Nat
  etype : String
  sourceFile : String
deriving DecidableEq

/-- The agent's `parse_expertise_document`: ЄРДР, expertise number,
date/year (with bare-year fallback) and type (sector-aware when a
Python-truthy sector code is supplied). -/
def agentParse (text : List Char) (filename : String) (sectorCode : Option String) :
    AgentParsed :=
  let dateRes := agentDateScan agentDatePatterns text
  let year0 : Option Nat := dateRes.map (fun dr => dr.2)
  { erddr := agentErddrScan agentErddrPatterns text
    number := agentNumberScan agentExpPatterns text
    date := match dateRes with | some dr => dr.1 | none => ""
    year := agentYear text year0
    etype :=
      match sectorCode with
      | some sc =>
        if sc == "" then determineExpertiseType text
        else determineExpertiseTypeBySector text sc
      | none => determineExpertiseType text
    sourceFile := filename }

/-! Sector resolver from the file path
(`ForensicArchiveAgent.determine_sector_from_path`). -/

/-- The agent's `self.sectors` dictionary (full sector names to codes;
the double space in the first code is present in the source). -/
def agentSectors : List (String × String) :=
  [("Сектор почеркознавчих досліджень", "почерк та  ТЕД"),
   ("Сектор досліджень зброї", "балісти"),
   ("Сектор трасологічних досліджень", "трасологія"),
   ("Сектор дактилоскопічних досліджень", "дактилоскопія"),
   ("Сектор балістичного обліку", "бал. облік")]

/-- Path keywords per sector code, in the dictionary order of
`determine_sector_from_path`. -/
def sectorPathKeywords : List (String × List String) :=
  [("почерк та ТЕД", ["почерк", "тед", "підпис", "рукопис", "графолог"]),
   ("балісти", ["балісти", "зброя", "пістолет", "куля", "гільза", "постріл"]),
   ("трасологія", ["трасол", "слід", "відбиток", "взуття", "шини", "механо"]),
   ("дактилоскопія", ["дактило", "палець", "папіляр", "дерматогліф"]),
   ("бал. облік", ["облік", "кулі", "гільзи", "ідентифік"])]

/-- Split a character list on a slash. -/
def splitSlashAux : List Char → List Char → List (List Char)
  | [], acc => [acc.reverse]
  | c :: rest, acc =>
    if c == '/' then acc.reverse :: splitSlashAux rest []
    else splitSlashAux rest (c :: acc)

/-- Python `file_path.replace('\\', '/').split('/')`. -/
def pathParts (path : List Char) : List (List Char) :=
  splitSlashAux (path.map (fun c => if c == '\\' then '/' else c)) []

/-- Python `self.sectors.get(sector, sector)`: since the dictionary is
keyed by full sector names, a lookup with a sector code falls back to
the code itself. -/
def sectorsGet (k : String) : String :=
  match agentSectors.find? (fun e => e.1 == k) with
  | some e => e.2
  | none => k

/-- The agent's `determine_sector_from_path`: the nested
sector-segment-keyword loops with early return condense to the first
sector (in table order) whose keyword list matches some lowered path
segment; the default sector code is returned otherwise. -/
def determineSectorFromPath (path : String) : String :=
  let parts := pathParts path.toList
  match sectorPathKeywords.find? (fun e =>
      parts.any (fun part => e.2.any (fun kw => isSubstr kw.toList (lowerStr part)))) with
  | some e => sectorsGet e.1
  | none => "почерк та ТЕД"

/-- The five fixed sector codes (the default code is the first). -/
def sectorCodes : List String :=
  ["почерк та ТЕД", "балісти", "трасологія", "дактилоскопія", "бал. облік"]

/-- Specification-side resolver, phrased exactly as the claim: the code
of the first sector in fixed table order whose keyword list has a
case-insensitive substring match in some path segment, else the default
sector code. -/
def sectorSpecResolve (path : String) : String :=
  match sectorPathKeywords.find? (fun e =>
      (pathParts path.toList).any (fun part =>
        e.2.any (fun kw => isSubstr kw.toList (lowerStr part)))) with
  | some e => e.1
  | none => "почерк та ТЕД"

/-! Optimized-variant definitions (forensic_part2_optimized.py, methods
of the `ForensicArchiveAgent` class of forensic_archive_optimized.py). -/

/-- Parsed-record dict of the optimized parser
(`_get_default_expertise_data` supplies the defaults). -/
structure P2Data where
  erddr : Option String
  number : Option String
  date : Option String
  year : Option Nat
  etype : String
  expert : String
  sector : String
  sourceFile : String
  filePath : String
  fileSize : Nat
deriving DecidableEq

/-- Keep only digit characters (`re.sub(r'[^\d]', '', s)`). -/
def digitsOnly (s : String) : String :=
  String.mk (s.toList.filter (fun c => c.isDigit))

/-- Full-match test for `^\d+(/\d+)*$`: slash-separated non-empty digit
groups. -/
def digitsSlashShape (s : String) : Bool :=
  (splitSlashAux s.toList []).all (fun g => !g.isEmpty && g.all (fun c => c.isDigit))

/-- Python truthiness of an optional string. -/
def optTruthyB (o : Option String) : Bool :=
  match o with
  | some s => s != ""
  | none => false

/-- ЄРДР block of `_validate_and_clean_expertise_data`: a Python-truthy
ЄРДР is reduced to its digits and dropped unless 11-12 of them remain. -/
def validateErddr (d : P2Data) : P2Data :=
  if optTruthyB d.erddr then
    let digits := digitsOnly (d.erddr.getD "")
    if 11 ≤ digits.length ∧ digits.length ≤ 12 then { d with erddr := some digits }
    else { d with erddr := none }
  else d

/-- Expertise-number block: a Python-truthy number is dropped unless
its stripped form matches `^\d+(/\d+)*$` (the original value is kept on
a match, as in the source). -/
def validateNumber (d : P2Data) : P2Data :=
  if optTruthyB d.number then
    if digitsSlashShape (String.mk (pyStrip (d.number.getD "").toList)) then d
    else { d with number := none }
  else d

/-- Year block: a Python-truthy year outside [2000, current_year+1] is
dropped together with the date (a zero year is falsy and untouched). -/
def validateYear (currentYear : Nat) (d : P2Data) : P2Data :=
  match d.year with
  | some y =>
    if y = 0 then d
    else if 2000 ≤ y ∧ y ≤ currentYear + 1 then d
    else { d with year := none, date := none }
  | none => d

/-- Expert block: a Python-truthy name shorter than 3 characters after
strip falls back to the sentinel. -/
def validateExpert (d : P2Data) : P2Data :=
  if d.expert != "" then
    if (pyStrip d.expert.toList).length < 3 then { d with expert := "Невідомий_експерт" }
    else d
  else d

/-- The optimized validator `_validate_and_clean_expertise_data`: the
four cleaning blocks in source order. -/
def validateAndClean (currentYear : Nat) (d : P2Data) : P2Data :=
  validateExpert (validateYear currentYear (validateNumber (validateErddr d)))

/-- Character class `[аі]` under IGNORECASE. -/
def clsAI : RE := .cls (fun c => c == 'а' || c == 'і' || c == 'А' || c == 'І')

/-- Character class `[аи]` under IGNORECASE. -/
def clsAY : RE := .cls (fun c => c == 'а' || c == 'и' || c == 'А' || c == 'И')

/-- Regex `\d+(?:/\d+)*`. -/
def digitsSlashRE : RE :=
  .seq (plusP isDigitC) (.star (.seq (chE '/') (plusP isDigitC)))

/-- Optimized expertise-number pattern 1:
`Експертиз[аі]\s*№\s*(\d+(?:/\d+)*)` (IGNORECASE). -/
def p2NumPat1 : RE :=
  seqL [litCI "Експертиз", clsAI, ws0, numSign, ws0, .grp 1 digitsSlashRE]

/-- Optimized expertise-number pattern 2:
`Висновок\s*експерт[аи]\s*№\s*(\d+(?:/\d+)*)`. -/
def p2NumPat2 : RE :=
  seqL [litCI "Висновок", ws0, litCI "експерт", clsAY, ws0, numSign, ws0,
    .grp 1 digitsSlashRE]

/-- Optimized expertise-number pattern 3:
`№\s*(\d+(?:/\d+)*)\s*від\s*\d+\.\d+\.\d+`. -/
def p2NumPat3 : RE :=
  seqL [numSign, ws0, .grp 1 digitsSlashRE, ws0, litCI "від", ws0,
    plusP isDigitC, chE '.', plusP isDigitC, chE '.', plusP isDigitC]

/-- Optimized expertise-number pattern 4:
`експертиз[аі]\s*(\d+(?:/\d+)*)`. -/
def p2NumPat4 : RE :=
  seqL [litCI "експертиз", clsAI, ws0, .grp 1 digitsSlashRE]

/-- The optimized `_parse_expertise_number_patterns`: first matching
pattern wins, `None` otherwise. -/
def p2NumberScan (content : List Char) : Option String :=
  let pats := [p2NumPat1, p2NumPat2, p2NumPat3, p2NumPat4]
  match pats.findSome? (fun p => capGroup 1 (reSearch p content)) with
  | some g => some (String.mk g)
  | none => none

/-- Character class `[№#]`. -/
def clsNumHash : RE := .alt (chE '№') (chE '#')

/-- Character class `[яі]` under IGNORECASE. -/
def clsYaI : RE := .cls (fun c => c == 'я' || c == 'і' || c == 'Я' || c == 'І')

/-- Optimized ЄРДР pattern 1: `ЄРДР\s*[№#]\s*(\d{11,12})` (IGNORECASE). -/
def p2ErddrPat1 : RE :=
  seqL [litCI "ЄРДР", ws0, clsNumHash, ws0, .grp 1 (rep1112 isDigitC)]

/-- Optimized ЄРДР pattern 2: `ЄРДР\s*(\d{11,12})`. -/
def p2ErddrPat2 : RE := seqL [litCI "ЄРДР", ws0, .grp 1 (rep1112 isDigitC)]

/-- Optimized ЄРДР pattern 3: `№\s*(\d{11,12})`. -/
def p2ErddrPat3 : RE := seqL [numSign, ws0, .grp 1 (rep1112 isDigitC)]

/-- Optimized ЄРДР pattern 4: `справ[аі]\s*№\s*(\d{11,12})`. -/
def p2ErddrPat4 : RE :=
  seqL [litCI "справ", clsAI, ws0, numSign, ws0, .grp 1 (rep1112 isDigitC)]

/-- Optimized ЄРДР pattern 5: `провадженн[яі]\s*№\s*(\d{11,12})`. -/
def p2ErddrPat5 : RE :=
  seqL [litCI "провадженн", clsYaI, ws0, numSign, ws0, .grp 1 (rep1112 isDigitC)]

/-- Optimized ЄРДР pattern 6: `(\d{11,12})\s*від`. -/
def p2ErddrPat6 : RE := seqL [.grp 1 (rep1112 isDigitC), ws0, litCI "від"]

/-- The optimized `_parse_erddr_patterns` loop: first pattern whose
capture has 11-12 characters wins. -/
def p2ErddrScanGo : List RE → List Char → Option String
  | [], _ => none
  | p :: rest, s =>
    match capGroup 1 (reSearch p s) with
    | some g =>
      if 11 ≤ g.length ∧ g.length ≤ 12 then some (String.mk g)
      else p2ErddrScanGo rest s
    | none => p2ErddrScanGo rest s

/-- The optimized ЄРДР extraction over its six patterns. -/
def p2ErddrScan (content : List Char) : Option String :=
  p2ErddrScanGo [p2ErddrPat1, p2ErddrPat2, p2ErddrPat3, p2ErddrPat4, p2ErddrPat5,
    p2ErddrPat6] content

/-- The optimized class's `self.expertise_keywords` table, in insertion
order. -/
def p2ExpertiseKeywords : List (String × List String) :=
  [("почеркознавча", ["почерк", "підпис", "рукопис"]),
   ("зброї", ["зброя", "пістолет", "автомат", "ніж", "холодна", "куля", "гільза", "балісти"]),
   ("трасологічна", ["слід", "відбиток", "трасол"]),
   ("дактилоскопічна", ["дактило", "палець", "папіляр"]),
   ("бал. облік", ["куля", "гільза"])]

/-- Context-bonus regex of `_determine_expertise_type`:
`{keyword}\s*(експертиз|дослідженн|висновок)`. -/
def ctxBonusRE (kw : String) : RE :=
  .seq (litS kw) (.seq ws0 (.alt (litS "експертиз")
    (.alt (litS "дослідженн") (litS "висновок"))))

/-- Weight of one category in the optimized classifier: occurrence
count per keyword, tripled when the keyword appears in an expertise
context. -/
def p2TypeWeight (low : List Char) (kws : List String) : Nat :=
  kws.foldl (fun acc kw =>
    let count := countSub kw.toList low
    if searchB (ctxBonusRE kw) low then acc + count * 3 else acc + count) 0

/-- The `expertise_weights` dictionary of the optimized classifier:
categories with positive weight, in table order. -/
def p2Scores (low : List Char) : List (String × Nat) :=
  (p2ExpertiseKeywords.map (fun e => (e.1, p2TypeWeight low e.2))).filter
    (fun e => 0 < e.2)

/-- The optimized `_determine_expertise_type`. -/
def p2DetermineExpertiseType (content : List Char) : String :=
  match argmaxFirst (p2Scores (lowerStr content)) with
  | some t => t
  | none => "невизначено"

/-! State model: the sqlite case index as a record list and the file
system as a path-to-content map. -/

/-- File system model: association list from path to a content
identifier (two files are byte-identical iff their identifiers agree). -/
abbrev FileSys := List (String × Nat)

/-- Content stored at a path, if any (os.path.exists plus content). -/
def fsLookup (fs : FileSys) (p : String) : Option Nat :=
  (fs.find? (fun e => e.1 == p)).map (fun e => e.2)

/-- `shutil.copy2` destination effect: the destination path now holds
the copied content, replacing any previous file at that path. -/
def fsWrite (fs : FileSys) (p : String) (content : Nat) : FileSys :=
  (p, content) :: fs.filter (fun e => e.1 != p)

/-- Last path component (os.path.basename on the paths in play). -/
def basenameStr (p : String) : String :=
  match (pathParts p.toList).getLast? with
  | some seg => String.mk seg
  | none => p

/-- Path join with a forward slash (os.path.join on the paths in play). -/
def joinPath (a b : String) : String := a ++ "/" ++ b

/-- Python `a or b` for an optional string versus a default. -/
def pyOrS (a : Option String) (b : String) : String :=
  match a with
  | some s => if s == "" then b else s
  | none => b

/-- Python `a or b` for optional years (zero is falsy). -/
def pyOrYearOpt (a : Option Nat) (b : Option Nat) : Option Nat :=
  match a with
  | some y => if y == 0 then b else some y
  | none => b

/-- Python truthiness of an optional year. -/
def pyTruthyYear (y : Option Nat) : Option Nat :=
  match y with
  | some n => if n == 0 then none else some n
  | none => none

/-- Python falsiness of an optional string. -/
def optFalsyB (o : Option String) : Bool :=
  match o with
  | some s => s == ""
  | none => true

/-- Replace the characters `< > : " / \ | ? *` by an underscore
(`re.sub(r'[<>:"/\\|?*]', '_', s)`). -/
def sanitizeSeg (s : String) : String :=
  String.mk (s.toList.map (fun c =>
    if c == '<' || c == '>' || c == ':' || c == '"' || c == '/' || c == '\\' ||
       c == '|' || c == '?' || c == '*' then '_' else c))

/-- Row of the minimal agent's `expertise_cases` table. -/
structure AgentRec where
  recId : Nat
  erddr : String
  number : String
  date : String
  year : Option Nat
  etype : String
  expert : String
  sector : String
  sourceFile : String
  filePath : String
deriving DecidableEq

/-- Joint database and file-system state of the minimal agent. -/
structure AgentState where
  db : List AgentRec
  fs : FileSys
deriving DecidableEq

/-- Construction parameters of the minimal agent relevant to
`add_document`. -/
structure AgentCfg where
  archiveFolder : String
  existingArchivePath : Option String
  indexOnlyMode : Bool
deriving DecidableEq

/-- Environment of one `add_document` call: the current year and
timestamp (datetime.now), whether the deep `os.makedirs` succeeds, and
the outcomes of the two fallible I/O steps (`None` = success, `Some e`
= the exception text `e`). -/
structure AgentEnv where
  nowYear : Nat
  autoStamp : String
  mkdirDeepOk : Bool
  copyErr : Option String
  insertErr : Option String
deriving DecidableEq

/-- Input of one `add_document` call.  The leading I/O of the source
(existence check, .doc conversion, text extraction) is abstracted by
passing the source path, its content identifier and the extracted text
directly; the embedding covers a readable .docx/.pdf file. -/
structure AgentAddInput where
  srcPath : String
  srcContent : Nat
  text : String
  sectorCode : Option String
  expertName : Option String
  expertiseYear : Option Nat
  expertiseNumber : Option String
deriving DecidableEq

/-- Values computed by `add_document` before validation: the parse
result and the merged (parameter-or-parsed) fields, with the
`AUTO_<timestamp>` fallback number. -/
structure AgentFields where
  parsed : AgentParsed
  number : String
  year : Option Nat
  expert : String
  sector : String
deriving DecidableEq

/-- Field merge of `add_document` (parameters win over parsed values
under Python `or`). -/
def agentAddFields (env : AgentEnv) (inp : AgentAddInput) : AgentFields :=
  let parsed := agentParse inp.text.toList (basenameStr inp.srcPath) inp.sectorCode
  let number0 := pyOrS inp.expertiseNumber parsed.number
  { parsed := parsed
    number := if number0 == "" then "AUTO_" ++ env.autoStamp else number0
    year := pyOrYearOpt inp.expertiseYear parsed.year
    expert := pyOrS inp.expertName "Невідомий_експерт"
    sector := pyOrS inp.sectorCode "почерк та ТЕД" }

/-- The agent's `get_file_destination_path`: sanitized
`archive/sector/expert/year/expertise` directory, falling back to the
sector directory when the deep `os.makedirs` fails. -/
def getFileDestinationPath (cfg : AgentCfg) (env : AgentEnv)
    (sectorCode expertName : String) (expertiseYear : Option Nat)
    (expertiseNumber : String) : String :=
  let yearFolder :=
    match pyTruthyYear expertiseYear with
    | some y => Nat.repr y
    | none => Nat.repr env.nowYear
  let safeExpert := sanitizeSeg (if expertName == "" then "Невідомий_експерт" else expertName)
  let safeSector := sanitizeSeg (if sectorCode == "" then "почерк та ТЕД" else sectorCode)
  let safeExpertise :=
    if expertiseNumber == "" then "експертиза_" ++ env.autoStamp
    else sanitizeSeg expertiseNumber
  if env.mkdirDeepOk then
    joinPath (joinPath (joinPath (joinPath cfg.archiveFolder safeSector) safeExpert)
      yearFolder) safeExpertise
  else joinPath cfg.archiveFolder safeSector

/-- Destination directory of the copy branch of `add_document`. -/
def agentAddDestDir (cfg : AgentCfg) (env : AgentEnv) (inp : AgentAddInput) : String :=
  let f := agentAddFields env inp
  getFileDestinationPath cfg env f.sector f.expert f.year f.number

/-- Destination file of the copy branch of `add_document`
(`os.path.join(dest_path, os.path.basename(original_path))`). -/
def agentAddDest (cfg : AgentCfg) (env : AgentEnv) (inp : AgentAddInput) : String :=
  joinPath (agentAddDestDir cfg env inp) (basenameStr inp.srcPath)

/-- The minimal agent's `add_document` after text extraction: field
merge, mandatory-field validation, `AUTO_` number fallback, uniqueness
pre-check (`SELECT id ... WHERE expertise_number = ?`), the
copy-or-index step, and the INSERT guarded by the UNIQUE column.  In
index-only mode the success `return` references the unassigned local
`dest_path`, so the NameError is caught and reported as a storage error
although the row was already committed; the embedding reproduces this. -/
def agentAddDocument (cfg : AgentCfg) (env : AgentEnv) (inp : AgentAddInput)
    (st : AgentState) : (Bool × String) × AgentState :=
  let f := agentAddFields env inp
  if (f.expert == "" || f.expert == "Невідомий_експерт") && optFalsyB inp.expertName then
    ((false, "Не вказано прізвище експерта. Будь ласка, введіть прізвище експерта."), st)
  else if f.sector == "" then
    ((false, "Не вказано сектор. Будь ласка, оберіть сектор."), st)
  else if st.db.any (fun r => r.number == f.number) then
    ((false, "Експертиза №" ++ f.number ++ " вже існує в базі"), st)
  else
    let indexMode := cfg.indexOnlyMode && optTruthyB cfg.existingArchivePath
    if indexMode &&
        !((cfg.existingArchivePath.getD "").toList.isPrefixOf inp.srcPath.toList) then
      ((false, "Файл не знаходиться в зазначеному архіві"), st)
    else
      let fs2 := if indexMode then st.fs
        else fsWrite st.fs (agentAddDest cfg env inp) inp.srcContent
      let filePath := if indexMode then inp.srcPath else agentAddDest cfg env inp
      if !indexMode && env.copyErr.isSome then
        ((false, "Помилка копіювання файлу: " ++ env.copyErr.getD ""), st)
      else
        match env.insertErr with
        | some e =>
          ((false, "Помилка збереження в базу: " ++ e),
           { db := st.db, fs := fs2 })
        | none =>
          if st.db.any (fun r => r.number == f.number) then
            ((false,
              "Помилка збереження в базу: UNIQUE constraint failed: expertise_cases.expertise_number"),
             { db := st.db, fs := fs2 })
          else
            let newRec : AgentRec :=
              { recId := st.db.length + 1, erddr := f.parsed.erddr, number := f.number,
                date := f.parsed.date, year := f.year, etype := f.parsed.etype,
                expert := f.expert, sector := f.sector,
                sourceFile := f.parsed.sourceFile, filePath := filePath }
            if indexMode then
              ((false, "Помилка збереження в базу: name dest_path is not defined"),
               { db := st.db ++ [newRec], fs := fs2 })
            else
              ((true, "Додано в " ++ f.sector ++ "/" ++ f.expert ++ ": " ++
                basenameStr (agentAddDestDir cfg env inp) ++ " (тип: " ++
                f.parsed.etype ++ ")"),
               { db := st.db ++ [newRec], fs := fs2 })

/-! Optimized add path: duplicate detection, archive copy with
collision-free naming, database insert
(`_add_document_impl`, `_check_duplicate_document`,
`_copy_file_to_archive`, `_save_document_to_database`). -/

/-- Row of the optimized `expertise_cases` table. -/
structure P2Rec where
  recId : Nat
  data : P2Data
  fileHash : Option Nat
  filePath : String
deriving DecidableEq

/-- `_check_duplicate_document`: lookup by content hash first, then by
source filename; `fetchone` is the first matching row. -/
def p2CheckDuplicate (db : List P2Rec) (fileHash : Option Nat) (filePath : String) :
    Option P2Rec :=
  match fileHash with
  | some h =>
    match db.find? (fun r => r.fileHash == some h) with
    | some r => some r
    | none => db.find? (fun r => r.data.sourceFile == basenameStr filePath)
  | none => db.find? (fun r => r.data.sourceFile == basenameStr filePath)

/-- `os.path.splitext` on a file name: split at the last dot preceded
by some non-dot character. -/
def splitExt (name : String) : String × String :=
  let s := name.toList
  match ((List.range s.length).filter (fun i => s.get? i == some '.')).getLast? with
  | some i =>
    if (s.take i).any (fun c => c != '.') then
      (String.mk (s.take i), String.mk (s.drop i))
    else (name, "")
  | none => (name, "")

/-- Candidate target path of the collision loop: the plain name for
counter 0, the name with `_<counter>` before the extension afterwards. -/
def targetCandidate (dir name ext : String) : Nat → String
  | 0 => joinPath dir (name ++ ext)
  | c + 1 => joinPath dir (name ++ "_" ++ Nat.repr (c + 1) ++ ext)

/-- The `while os.path.exists(target_path)` loop of
`_copy_file_to_archive`: try counters upward until a free path is
found.  The fuel only bounds the iteration; `occupied.length + 2`
attempts always suffice because distinct counters give distinct names. -/
def findFreeTarget (occupied : List String) (dir name ext : String) :
    Nat → Nat → Option String
  | 0, _ => none
  | fuel + 1, c =>
    let t := targetCandidate dir name ext c
    if t ∈ occupied then findFreeTarget occupied dir name ext fuel (c + 1)
    else some t

/-- Destination directory of `_copy_file_to_archive`:
`archive/sector/expert` plus the year folder when the year is
Python-truthy. -/
def p2CopyTargetDir (archiveFolder : String) (parsed : P2Data) : String :=
  let expertDir := joinPath (joinPath archiveFolder parsed.sector) parsed.expert
  match pyTruthyYear parsed.year with
  | some y => joinPath expertDir (Nat.repr y)
  | none => expertDir

/-- File-name stem of `_copy_file_to_archive`: the source basename stem,
prefixed by the expertise number when Python-truthy. -/
def p2CopyName (srcPath : String) (parsed : P2Data) : String :=
  let stem := (splitExt (basenameStr srcPath)).1
  match parsed.number with
  | some num => if num == "" then stem else num ++ "_" ++ stem
  | none => stem

/-- Extension kept by `_copy_file_to_archive`. -/
def p2CopyExt (srcPath : String) : String := (splitExt (basenameStr srcPath)).2

/-- `_copy_file_to_archive`: destination directory from sector, expert
and (Python-truthy) year, filename prefixed by the expertise number
when present, collision resolved by the counter loop, then
`shutil.copy2`.  Directory creation is modelled as succeeding. -/
def p2CopyFileToArchive (archiveFolder : String) (fs : FileSys) (srcPath : String)
    (srcContent : Nat) (parsed : P2Data) : Option (FileSys × String) :=
  match findFreeTarget (fs.map (fun e => e.1)) (p2CopyTargetDir archiveFolder parsed)
      (p2CopyName srcPath parsed) (p2CopyExt srcPath) (fs.length + 2) 0 with
  | some target => some (fsWrite fs target srcContent, target)
  | none => none

/-- Result dict of `_add_document_impl`. -/
structure P2AddResult where
  success : Bool
  errMsg : Option String
  existingId : Option Nat
  documentId : Option Nat
deriving DecidableEq

/-- Python `file_path.lower().endswith(SUPPORTED_EXTENSIONS)`. -/
def endsWithSupported (path : String) : Bool :=
  let low := lowerStr path.toList
  ".doc".toList.isSuffixOf low || ".docx".toList.isSuffixOf low ||
  ".pdf".toList.isSuffixOf low

/-- The optimized `_add_document_impl` (the file-existence check is a
precondition; the hash value, `None` on hash failure, is an input; the
parse result is an input since the claims settled here do not depend on
parsing).  Duplicate check, archive copy when not in index-only mode,
then `_save_document_to_database`, whose plain INSERT surfaces a
present duplicate `expertise_number` as an IntegrityError (multiple
NULL numbers are allowed by sqlite UNIQUE). -/
def p2AddDocument (indexOnlyMode : Bool) (archiveFolder : String) (db : List P2Rec)
    (fs : FileSys) (srcPath : String) (srcContent : Nat) (fileHash : Option Nat)
    (forceReparse : Bool) (parsed : P2Data) : P2AddResult × List P2Rec × FileSys :=
  if !endsWithSupported srcPath then
    ({ success := false, errMsg := some "Непідтримуваний формат файлу",
       existingId := none, documentId := none }, db, fs)
  else
    let dup :=
      if !forceReparse && fileHash.isSome then p2CheckDuplicate db fileHash srcPath
      else none
    match dup with
    | some r =>
      ({ success := false,
         errMsg := some ("Файл вже існує в базі (ID: " ++ Nat.repr r.recId ++ ")"),
         existingId := some r.recId, documentId := none }, db, fs)
    | none =>
      let afterCopy :=
        if indexOnlyMode then some (fs, srcPath)
        else p2CopyFileToArchive archiveFolder fs srcPath srcContent parsed
      match afterCopy with
      | none =>
        ({ success := false, errMsg := some "Помилка копіювання файлу",
           existingId := none, documentId := none }, db, fs)
      | some (fs2, archivePath) =>
        let conflict :=
          match parsed.number with
          | some n => db.any (fun r => r.data.number == some n)
          | none => false
        if conflict then
          ({ success := false, errMsg := some "Помилка збереження в базу даних",
             existingId := none, documentId := none }, db, fs2)
        else
          let rid := db.length + 1
          ({ success := true, errMsg := none, existingId := none,
             documentId := some rid },
           db ++ [{ recId := rid, data := { parsed with filePath := archivePath },
                    fileHash := fileHash, filePath := archivePath }], fs2)

/-! Helper lemmas. -/

/-- Projection: the ЄРДР block leaves the year unchanged. -/
theorem validateErddr_year (d : P2Data) : (validateErddr d).year = d.year := by
  simp only [validateErddr]; split_ifs <;> rfl

/-- Projection: the ЄРДР block leaves the date unchanged. -/
theorem validateErddr_date (d : P2Data) : (validateErddr d).date = d.date := by
  simp only [validateErddr]; split_ifs <;> rfl

/-- Projection: the number block leaves the year unchanged. -/
theorem validateNumber_year (d : P2Data) : (validateNumber d).year = d.year := by
  simp only [validateNumber]; split_ifs <;> rfl

/-- Projection: the number block leaves the date unchanged. -/
theorem validateNumber_date (d : P2Data) : (validateNumber d).date = d.date := by
  simp only [validateNumber]; split_ifs <;> rfl

/-- Projection: the expert block leaves the year unchanged. -/
theorem validateExpert_year (d : P2Data) : (validateExpert d).year = d.year := by
  simp only [validateExpert]; split_ifs <;> rfl

/-- Projection: the expert block leaves the date unchanged. -/
theorem validateExpert_date (d : P2Data) : (validateExpert d).date = d.date := by
  simp only [validateExpert]; split_ifs <;> rfl

/-! Claim theorems. -/

/-- C2: a file whose content hash equals the stored file_hash of a
previously indexed record is rejected by the optimized add path with a
duplicate result referencing the existing record's id, no row is
inserted and the file system is untouched, whatever the file names are
(the source path is arbitrary apart from a supported extension). -/
theorem C2_content_hash_duplicate_rejected
    (indexOnly : Bool) (archiveFolder : String) (db : List P2Rec) (fs : FileSys)
    (srcPath : String) (content h : Nat) (r : P2Rec) (parsed : P2Data)
    (hsup : endsWithSupported srcPath = true)
    (hfind : db.find? (fun q => q.fileHash == some h) = some r) :
    p2AddDocument indexOnly archiveFolder db fs srcPath content (some h) false parsed =
      ({ success := false,
         errMsg := some ("Файл вже існує в базі (ID: " ++ Nat.repr r.recId ++ ")"),
         existingId := some r.recId, documentId := none }, db, fs) := by
  simp [p2AddDocument, p2CheckDuplicate, hsup, hfind]

/-- A stored record used by the C2 and C9 witnesses. -/
def wOldData : P2Data :=
  ⟨none, some "1/2", none, none, "невизначено", "Невідомий_експерт",
    "почерк та ТЕД", "old.docx", "p", 0⟩

/-- The stored row used by the C2 and C9 witnesses (hash 55). -/
def wOldRec : P2Rec := ⟨1, wOldData, some 55, "p"⟩

/-- A fresh parse result used by the C2 and C9 witnesses. -/
def wNewData (src : String) : P2Data :=
  ⟨none, none, none, none, "невизначено", "Невідомий_експерт",
    "почерк та ТЕД", basenameStr src, src, 0⟩

/-- C2 witness: concrete duplicate-hash rejection. -/
theorem C2_witness :
    p2AddDocument false "archive" [wOldRec] [] "x/y.docx" 9 (some 55) false
      (wNewData "x/y.docx") =
      ({ success := false, errMsg := some "Файл вже існує в базі (ID: 1)",
         existingId := some 1, documentId := none }, [wOldRec], []) :=
  C2_content_hash_duplicate_rejected false "archive" [wOldRec] [] "x/y.docx" 9 55
    wOldRec (wNewData "x/y.docx") (by decide) rfl

/-- C9: after a successful hash computation that matches no stored
hash, the optimized duplicate check still applies the filename
comparison, so a record with the same source_file causes a duplicate
rejection referencing that record even though the contents differ. -/
theorem C9_filename_check_after_hash_miss
    (indexOnly : Bool) (archiveFolder : String) (db : List P2Rec) (fs : FileSys)
    (srcPath : String) (content h : Nat) (r : P2Rec) (parsed : P2Data)
    (hsup : endsWithSupported srcPath = true)
    (hnohash : ∀ q ∈ db, q.fileHash ≠ some h)
    (hname : db.find? (fun q => q.data.sourceFile == basenameStr srcPath) = some r) :
    p2AddDocument indexOnly archiveFolder db fs srcPath content (some h) false parsed =
      ({ success := false,
         errMsg := some ("Файл вже існує в базі (ID: " ++ Nat.repr r.recId ++ ")"),
         existingId := some r.recId, documentId := none }, db, fs) := by
  have hfindnone : db.find? (fun q => q.fileHash == some h) = none :=
    List.find?_eq_none.mpr (fun q hq => by simpa using hnohash q hq)
  simp [p2AddDocument, p2CheckDuplicate, hsup, hfindnone, hname]

/-- C9 witness: a fresh hash (77) with a colliding basename is
rejected against the stored row. -/
theorem C9_witness :
    p2AddDocument false "archive" [wOldRec] [] "x/old.docx" 9 (some 77) false
      (wNewData "x/old.docx") =
      ({ success := false, errMsg := some "Файл вже існує в базі (ID: 1)",
         existingId := some 1, documentId := none }, [wOldRec], []) :=
  C9_filename_check_after_hash_miss false "archive" [wOldRec] [] "x/old.docx" 9 77
    wOldRec (wNewData "x/old.docx") (by decide) (by decide) rfl

/-- C8: both classifiers are pure functions of the document text in
this embedding; equal inputs give equal category labels. -/
theorem C8_classifier_deterministic (t1 t2 : List Char) (heq : t1 = t2) :
    determineExpertiseType t1 = determineExpertiseType t2 ∧
    p2DetermineExpertiseType t1 = p2DetermineExpertiseType t2 := by
  subst heq; exact ⟨rfl, rfl⟩

/-- C8 witness: determinism at a concrete text. -/
theorem C8_witness :
    determineExpertiseType "почерк та підпис".toList =
      determineExpertiseType "почерк та підпис".toList ∧
    p2DetermineExpertiseType "почерк та підпис".toList =
      p2DetermineExpertiseType "почерк та підпис".toList :=
  C8_classifier_deterministic _ _ rfl

/-- The scenario text of claim C5 (spec §8), with the ellipsis kept
literally. -/
def c5Text : String :=
  "Висновок №105/24Е-17 від 12.03.2024 ... ЄРДР №12023450000000123"

/-- The minimal agent's parse of the C5 scenario text. -/
def c5Parsed : AgentParsed := agentParse c5Text.toList "scan.docx" none

/-- C5 counterexample: on the scenario text the minimal agent parser
does produce the claimed expertise number, date and year, but its
erddr_number is the full 17-digit token (its threshold is merely at
least 8 digits), not an 11-12-digit token; and the optimized parser,
whose ЄРДР patterns do extract 11-12 digits, fails to extract this
expertise-number format at all.  So no parser of the repository
produces all four claimed values. -/
theorem C5_counterexample :
    c5Parsed.number = "105/24Е-17" ∧ c5Parsed.date = "12.03.2024" ∧
    c5Parsed.year = some 2024 ∧
    c5Parsed.erddr = "12023450000000123" ∧
    ¬ (c5Parsed.erddr.length = 11 ∨ c5Parsed.erddr.length = 12) ∧
    p2NumberScan c5Text.toList = none :=
  ⟨rfl, rfl, rfl, rfl, by decide, rfl⟩

/-- C5 amended: on the scenario text the minimal agent parser yields
expertise_number "105/24Е-17", expertise_date "12.03.2024",
expertise_year 2024 and, as erddr_number, the full 17-digit token after
ЄРДР; the 11-12-digit extraction near ЄРДР exists in the optimized
variant, which returns the first 12 digits of that token. -/
theorem C5_amended_scenario :
    c5Parsed.number = "105/24Е-17" ∧ c5Parsed.date = "12.03.2024" ∧
    c5Parsed.year = some 2024 ∧ c5Parsed.erddr = "12023450000000123" ∧
    p2ErddrScan c5Text.toList = some "120234500000" :=
  ⟨rfl, rfl, rfl, rfl, rfl⟩

/-- Environment of the C3 counterexample run. -/
def c3Env : AgentEnv := ⟨2026, "stamp", true, none, none⟩

/-- Input of the C3 counterexample run: a document dated 12.03.1995. -/
def c3Inp : AgentAddInput :=
  ⟨"in/report.docx", 7, "Висновок № 77/21Е-5 від 12.03.1995", some "балісти",
   some "Іваненко", none, none⟩

/-- The C3 counterexample run of the minimal agent's add on an empty
archive. -/
def c3Run : (Bool × String) × AgentState :=
  agentAddDocument ⟨"archive", none, false⟩ c3Env c3Inp ⟨[], []⟩

/-- C3 counterexample: the minimal agent pipeline persists the record
with expertise_year 1995 and expertise_date "12.03.1995" although 1995
lies below 2000 and hence outside [2000, current_year+1] for every
current year — the minimal variant has no year-validation step, so the
rejected-year pair survives to persistence. -/
theorem C3_counterexample :
    c3Run.1.1 = true ∧
    c3Run.2.db.map (fun r => (r.year, r.date)) = [(some 1995, "12.03.1995")] ∧
    1995 < 2000 :=
  ⟨rfl, rfl, by norm_num⟩

/-- C3 amended: in the optimized pipeline the validator clears both the
year and the date whenever a present non-zero year lies outside
[2000, current_year+1]; the minimal agent pipeline performs no such
validation and persists the pair unchanged. -/
theorem C3_optimized_year_and_date_cleared
    (currentYear : Nat) (d : P2Data) (y : Nat)
    (hy : d.year = some y) (hy0 : y ≠ 0)
    (hout : ¬ (2000 ≤ y ∧ y ≤ currentYear + 1)) :
    (validateAndClean currentYear d).year = none ∧
    (validateAndClean currentYear d).date = none := by
  have h2y : (validateNumber (validateErddr d)).year = some y := by
    rw [validateNumber_year, validateErddr_year, hy]
  have h3 : validateYear currentYear (validateNumber (validateErddr d)) =
      { validateNumber (validateErddr d) with year := none, date := none } := by
    unfold validateYear
    rw [h2y]
    simp [hy0, hout]
  unfold validateAndClean
  rw [h3, validateExpert_year, validateExpert_date]
  exact ⟨rfl, rfl⟩

/-- C3 witness: the optimized validator clears year 1980 and its date
at current year 2025. -/
theorem C3_witness :
    (validateAndClean 2025 ⟨none, none, some "01.01.1980", some 1980, "невизначено",
      "Невідомий_експерт", "почерк та ТЕД", "f.docx", "p", 0⟩).year = none ∧
    (validateAndClean 2025 ⟨none, none, some "01.01.1980", some 1980, "невизначено",
      "Невідомий_експерт", "почерк та ТЕД", "f.docx", "p", 0⟩).date = none :=
  C3_optimized_year_and_date_cleared 2025 _ 1980 rfl (by decide) (by decide)

/-- The pre-existing archive file of the C4 counterexample run. -/
def c4Dest : String := "archive/балісти/Петренко/2023/55-23СЕ/report.docx"

/-- Input of the C4 counterexample run: same expertise parameters and
the same basename as the file already in the archive, but different
content (id 2 versus id 1). -/
def c4Inp : AgentAddInput :=
  ⟨"upload/report.docx", 2, "зразок", some "балісти", some "Петренко", some 2023,
   some "55-23СЕ"⟩

/-- The C4 counterexample run of the minimal agent's add. -/
def c4Run : (Bool × String) × AgentState :=
  agentAddDocument ⟨"archive", none, false⟩ ⟨2025, "stamp", true, none, none⟩ c4Inp
    ⟨[], [(c4Dest, 1)]⟩

/-- C4 counterexample: the minimal agent's `add_document` joins the
destination directory with the plain basename and calls `shutil.copy2`
without any collision check, so the file already stored at the target
path (content 1) is silently overwritten with the new content (2) while
the add reports success — refuting "no existing file in the archive is
ever overwritten" for this add path. -/
theorem C4_counterexample :
    fsLookup [(c4Dest, 1)] c4Dest = some 1 ∧ c4Run.1.1 = true ∧
    fsLookup c4Run.2.fs c4Dest = some 2 ∧ (1 : Nat) ≠ 2 :=
  ⟨rfl, rfl, rfl, by decide⟩

/-- The collision loop returns a free target of candidate form with
all smaller counters occupied. -/
theorem findFreeTarget_spec
    (occupied : List String) (dir name ext : String) (fuel start : Nat) (t : String)
    (hres : findFreeTarget occupied dir name ext fuel start = some t) :
    t ∉ occupied ∧
    ∃ k, t = targetCandidate dir name ext (start + k) ∧
      ∀ j, j < k → targetCandidate dir name ext (start + j) ∈ occupied := by
  induction fuel generalizing start with
  | zero => simp [findFreeTarget] at hres
  | succ f ih =>
    simp only [findFreeTarget] at hres
    by_cases hmem : targetCandidate dir name ext start ∈ occupied
    · rw [if_pos hmem] at hres
      obtain ⟨hnot, k, hk, hall⟩ := ih (start + 1) hres
      refine ⟨hnot, k + 1, ?_, ?_⟩
      · have harith : start + (k + 1) = start + 1 + k := by omega
        rw [harith]; exact hk
      · intro j hj
        match j with
        | 0 => simpa using hmem
        | j2 + 1 =>
          have harith : start + (j2 + 1) = start + 1 + j2 := by omega
          rw [harith]; exact hall j2 (by omega)
    · rw [if_neg hmem] at hres
      cases hres
      exact ⟨hmem, 0, by simp, fun j hj => absurd hj (by omega)⟩

/-- A written path reads back the written content. -/
theorem fsLookup_fsWrite_self (fs : FileSys) (p : String) (c : Nat) :
    fsLookup (fsWrite fs p c) p = some c := by
  simp [fsLookup, fsWrite]

/-- Filtering out one key does not change lookups of a different key. -/
theorem find?_filter_ne (fs : FileSys) (p q : String) (hne : q ≠ p) :
    (fs.filter (fun e => e.1 != p)).find? (fun e => e.1 == q) =
      fs.find? (fun e => e.1 == q) := by
  induction fs with
  | nil => rfl
  | cons e rest ih =>
    by_cases h : e.1 = p
    · rw [List.filter_cons_of_neg (by simp [h]),
        List.find?_cons_of_neg _ (by simp [h, Ne.symm hne]), ih]
    · rw [List.filter_cons_of_pos (by simp [h])]
      by_cases h2 : e.1 = q
      · rw [List.find?_cons_of_pos _ (by simp [h2]),
          List.find?_cons_of_pos _ (by simp [h2])]
      · rw [List.find?_cons_of_neg _ (by simp [h2]),
          List.find?_cons_of_neg _ (by simp [h2]), ih]

/-- Writing one path leaves every other path unchanged. -/
theorem fsLookup_fsWrite_other (fs : FileSys) (p q : String) (c : Nat)
    (hne : q ≠ p) : fsLookup (fsWrite fs p c) q = fsLookup fs q := by
  unfold fsLookup fsWrite
  rw [List.find?_cons_of_neg _ (by simp [Ne.symm hne]), find?_filter_ne fs p q hne]

/-- C4 amended: when the optimized `_copy_file_to_archive` succeeds,
its chosen target path is not occupied by any existing file, every
pre-existing path keeps its previous content (no existing file in the
archive is overwritten), the copied content sits at the target, and the
target is the plain destination name or the name with the first free
incrementing `_k` suffix before the extension, all smaller candidates
being occupied.  The minimal agent's `add_document`, by contrast,
copies onto the basename target unconditionally and can overwrite (see
the counterexample run). -/
theorem C4_optimized_suffix_until_free
    (archiveFolder : String) (fs : FileSys) (srcPath : String) (srcContent : Nat)
    (parsed : P2Data) (fs2 : FileSys) (target : String)
    (hcopy : p2CopyFileToArchive archiveFolder fs srcPath srcContent parsed =
      some (fs2, target)) :
    target ∉ fs.map (fun e => e.1) ∧
    (∀ q, q ≠ target → fsLookup fs2 q = fsLookup fs q) ∧
    fsLookup fs2 target = some srcContent ∧
    ∃ k, target = targetCandidate (p2CopyTargetDir archiveFolder parsed)
        (p2CopyName srcPath parsed) (p2CopyExt srcPath) k ∧
      ∀ j, j < k → targetCandidate (p2CopyTargetDir archiveFolder parsed)
          (p2CopyName srcPath parsed) (p2CopyExt srcPath) j ∈
            fs.map (fun e => e.1) := by
  unfold p2CopyFileToArchive at hcopy
  cases hfind : findFreeTarget (fs.map (fun e => e.1))
      (p2CopyTargetDir archiveFolder parsed) (p2CopyName srcPath parsed)
      (p2CopyExt srcPath) (fs.length + 2) 0 with
  | none => rw [hfind] at hcopy; cases hcopy
  | some t =>
    rw [hfind] at hcopy
    cases hcopy
    obtain ⟨hnot, k, hk, hall⟩ := findFreeTarget_spec _ _ _ _ _ _ _ hfind
    refine ⟨hnot, ?_, fsLookup_fsWrite_self _ _ _, k, by simpa using hk,
      fun j hj => by simpa using hall j hj⟩
    intro q hq
    exact fsLookup_fsWrite_other fs _ q srcContent hq

/-- Parse record used by the C4 witness (sector балісти, expert
Петренко, year 2023, no expertise number). -/
def c4WitnessParsed : P2Data :=
  ⟨none, none, none, some 2023, "зброї", "Петренко", "балісти", "a.docx",
   "up/a.docx", 0⟩

/-- C4 witness: a concrete copy into a directory already holding
`a.docx` and `a_1.docx` lands on `a_2.docx`, preserving both existing
files. -/
theorem C4_witness :
    "archive/балісти/Петренко/2023/a_2.docx" ∉
      ([("archive/балісти/Петренко/2023/a.docx", 5),
        ("archive/балісти/Петренко/2023/a_1.docx", 6)] : FileSys).map
        (fun e => e.1) ∧
    (∀ q, q ≠ "archive/балісти/Петренко/2023/a_2.docx" →
      fsLookup (fsWrite [("archive/балісти/Петренко/2023/a.docx", 5),
          ("archive/балісти/Петренко/2023/a_1.docx", 6)]
          "archive/балісти/Петренко/2023/a_2.docx" 9) q =
      fsLookup [("archive/балісти/Петренко/2023/a.docx", 5),
          ("archive/балісти/Петренко/2023/a_1.docx", 6)] q) ∧
    fsLookup (fsWrite [("archive/балісти/Петренко/2023/a.docx", 5),
        ("archive/балісти/Петренко/2023/a_1.docx", 6)]
        "archive/балісти/Петренко/2023/a_2.docx" 9)
      "archive/балісти/Петренко/2023/a_2.docx" = some 9 ∧
    ∃ k, "archive/балісти/Петренко/2023/a_2.docx" =
        targetCandidate (p2CopyTargetDir "archive" c4WitnessParsed)
          (p2CopyName "up/a.docx" c4WitnessParsed) (p2CopyExt "up/a.docx") k ∧
      ∀ j, j < k → targetCandidate (p2CopyTargetDir "archive" c4WitnessParsed)
          (p2CopyName "up/a.docx" c4WitnessParsed) (p2CopyExt "up/a.docx") j ∈
            ([("archive/балісти/Петренко/2023/a.docx", 5),
              ("archive/балісти/Петренко/2023/a_1.docx", 6)] : FileSys).map
              (fun e => e.1) :=
  C4_optimized_suffix_until_free "archive"
    [("archive/балісти/Петренко/2023/a.docx", 5),
     ("archive/балісти/Петренко/2023/a_1.docx", 6)]
    "up/a.docx" 9 c4WitnessParsed _ "archive/балісти/Петренко/2023/a_2.docx" rfl

/-- C6: the path-based sector resolver equals, on every path, the
specification-side first-matching-sector function (fixed table order,
case-insensitive substring match against each path segment, default
sector code when nothing matches), always returns one of the five
fixed sector codes, and maps the scenario path
"Балісти_Петренко/2023/55-23СЕ" to the weapons sector code. -/
theorem C6_sector_resolver :
    (∀ path : String, determineSectorFromPath path = sectorSpecResolve path ∧
      determineSectorFromPath path ∈ sectorCodes) ∧
    determineSectorFromPath "Балісти_Петренко/2023/55-23СЕ" = "балісти" := by
  constructor
  · intro path
    simp only [determineSectorFromPath, sectorSpecResolve]
    cases hfind : sectorPathKeywords.find? (fun e =>
        (pathParts path.toList).any (fun part =>
          e.2.any (fun kw => isSubstr kw.toList (lowerStr part)))) with
    | none => simp [hfind, sectorCodes]
    | some e =>
      have hmem := List.mem_of_find?_eq_some hfind
      simp only [hfind]
      have hkey : sectorsGet e.1 = e.1 ∧ e.1 ∈ sectorCodes := by
        fin_cases hmem <;> exact ⟨by decide, by decide⟩
      exact ⟨hkey.1, by rw [hkey.1]; exact hkey.2⟩
  · decide

/-- Lookup on a non-empty score list: the head wins when its key
matches, otherwise the tail decides. -/
theorem scoreOf_cons (e : String × Nat) (rest : List (String × Nat)) (k : String) :
    scoreOf (e :: rest) k = if e.1 = k then some e.2 else scoreOf rest k := by
  unfold scoreOf
  by_cases h : e.1 = k
  · rw [List.find?_cons_of_pos _ (by simp [h]), if_pos h]; rfl
  · rw [List.find?_cons_of_neg _ (by simp [h]), if_neg h]

/-- Lookup after a bump on the same key adds 5. -/
theorem scoreOf_bump5_same (l : List (String × Nat)) (k : String) :
    scoreOf (bump5 l k) k = (scoreOf l k).map (fun v => v + 5) := by
  induction l with
  | nil => rfl
  | cons e rest ih =>
    simp only [bump5]
    by_cases h : e.1 = k
    · simp [scoreOf_cons, h]
    · simp [scoreOf_cons, h, ih]

/-- Lookup after a bump on a different key is unchanged. -/
theorem scoreOf_bump5_other (l : List (String × Nat)) (k k2 : String)
    (hne : k ≠ k2) :
    scoreOf (bump5 l k2) k = scoreOf l k := by
  induction l with
  | nil => rfl
  | cons e rest ih =>
    simp only [bump5]
    have hk : k2 ≠ k := Ne.symm hne
    by_cases h : e.1 = k2
    · simp [scoreOf_cons, h, hk, ih]
    · by_cases h2 : e.1 = k
      · simp [scoreOf_cons, h, h2, hne]
      · simp [scoreOf_cons, h, h2, ih]

/-- A category present in the base score list has a positive score. -/
theorem scoreOf_base_pos (low : List Char) (k : String) (v : Nat)
    (h : scoreOf (agentBaseScores low) k = some v) : 0 < v := by
  unfold scoreOf at h
  obtain ⟨e, hfind, hv⟩ := Option.map_eq_some'.mp h
  have hmem := List.mem_of_find?_eq_some hfind
  unfold agentBaseScores at hmem
  have := List.of_mem_filter hmem
  simpa [hv] using this

/-- C7: whenever both the weapons category and the trace/tool-mark
category have non-zero base scores, the disambiguation step adds a
bonus of exactly 5 to the category with the strictly greater count of
its context indicators in the lowered text, leaving the other score
unchanged, and the weapons category receives the bonus on ties. -/
theorem C7_weapons_trace_disambiguation (text : List Char) (wz wt : Nat)
    (hz : scoreOf (agentBaseScores (lowerStr text)) "зброї" = some wz)
    (ht : scoreOf (agentBaseScores (lowerStr text)) "трасологічна" = some wt) :
    0 < wz ∧ 0 < wt ∧
    (if indicatorCount weaponsIndicators (lowerStr text) <
        indicatorCount trasolIndicators (lowerStr text) then
      scoreOf (agentFinalScores (lowerStr text)) "трасологічна" = some (wt + 5) ∧
      scoreOf (agentFinalScores (lowerStr text)) "зброї" = some wz
    else
      scoreOf (agentFinalScores (lowerStr text)) "зброї" = some (wz + 5) ∧
      scoreOf (agentFinalScores (lowerStr text)) "трасологічна" = some wt) := by
  refine ⟨scoreOf_base_pos _ _ _ hz, scoreOf_base_pos _ _ _ ht, ?_⟩
  have hfs : agentFinalScores (lowerStr text) =
      if indicatorCount weaponsIndicators (lowerStr text) <
          indicatorCount trasolIndicators (lowerStr text) then
        bump5 (agentBaseScores (lowerStr text)) "трасологічна"
      else bump5 (agentBaseScores (lowerStr text)) "зброї" := by
    simp only [agentFinalScores]
    rw [hz, ht]
    simp
  by_cases hind : indicatorCount weaponsIndicators (lowerStr text) <
      indicatorCount trasolIndicators (lowerStr text)
  · rw [if_pos hind, hfs, if_pos hind, scoreOf_bump5_same,
      scoreOf_bump5_other _ _ _ (by decide), hz, ht]
    exact ⟨rfl, rfl⟩
  · rw [if_neg hind, hfs, if_neg hind, scoreOf_bump5_same,
      scoreOf_bump5_other _ _ _ (by decide), hz, ht]
    exact ⟨rfl, rfl⟩

/-- C7 witness: on the text "слід куля" both categories score (10 and
8), the trace indicator count (1) exceeds the weapons count (0), and
the bonus lands on the trace category. -/
theorem C7_witness :
    0 < 10 ∧ 0 < 8 ∧
    (if indicatorCount weaponsIndicators (lowerStr "слід куля".toList) <
        indicatorCount trasolIndicators (lowerStr "слід куля".toList) then
      scoreOf (agentFinalScores (lowerStr "слід куля".toList)) "трасологічна" =
        some (8 + 5) ∧
      scoreOf (agentFinalScores (lowerStr "слід куля".toList)) "зброї" = some 10
    else
      scoreOf (agentFinalScores (lowerStr "слід куля".toList)) "зброї" =
        some (10 + 5) ∧
      scoreOf (agentFinalScores (lowerStr "слід куля".toList)) "трасологічна" =
        some 8) :=
  C7_weapons_trace_disambiguation "слід куля".toList 10 8 rfl rfl

/-- No stored record carries the number `n` (Boolean form). -/
theorem any_number_false (db : List AgentRec) (n : String)
    (h : ∀ r ∈ db, r.number ≠ n) : db.any (fun r => r.number == n) = false :=
  List.any_eq_false.mpr (fun r hr => by simpa using h r hr)

/-- Filtering by a number absent from the table gives the empty list. -/
theorem filter_number_nil (db : List AgentRec) (n : String)
    (h : ∀ r ∈ db, r.number ≠ n) : db.filter (fun r => r.number == n) = [] := by
  rw [List.filter_eq_nil_iff]
  intro r hr
  simpa using h r hr

/-- A non-empty default makes the Python `or` merge non-empty. -/
theorem pyOrS_default_ne (o : Option String) (d : String) (hd : d ≠ "") :
    (pyOrS o d == "") = false := by
  unfold pyOrS
  cases o with
  | none => simpa using hd
  | some s => by_cases hs : s = "" <;> simp [hs, hd]

/-- A non-empty default makes the Python `or` merge non-empty
(propositional form). -/
theorem pyOrS_default_ne_prop (o : Option String) (d : String) (hd : d ≠ "") :
    pyOrS o d ≠ "" := by
  unfold pyOrS
  cases o with
  | none => exact hd
  | some s => by_cases hs : s = "" <;> simp [hs, hd]

/-- The merged sector of an add call is never the empty string. -/
theorem agentAddFields_sector_ne (env : AgentEnv) (inp : AgentAddInput) :
    (agentAddFields env inp).sector ≠ "" := by
  simp only [agentAddFields]
  exact pyOrS_default_ne_prop _ _ (by decide)

/-- The merged number of an add call that supplies a non-empty
expertise number parameter is that parameter. -/
theorem agentAddFields_number (env : AgentEnv) (inp : AgentAddInput) (n : String)
    (hn : inp.expertiseNumber = some n) (hne : n ≠ "") :
    (agentAddFields env inp).number = n := by
  simp [agentAddFields, hn, pyOrS, hne]

/-- The merged expert of an add call that supplies a non-empty expert
name parameter is that parameter. -/
theorem agentAddFields_expert (env : AgentEnv) (inp : AgentAddInput) (e : String)
    (hex : inp.expertName = some e) (he : e ≠ "") :
    (agentAddFields env inp).expert = e := by
  simp [agentAddFields, hex, pyOrS, he]

/-- Successful copy-mode add: with a supplied fresh non-empty number, a
supplied non-empty expert, and succeeding I/O, `add_document` copies
the file to the destination and appends one row. -/
theorem agentAdd_success (cfg : AgentCfg) (env : AgentEnv) (inp : AgentAddInput)
    (st : AgentState) (n e : String)
    (hmode : cfg.indexOnlyMode = false) (hco : env.copyErr = none)
    (hin : env.insertErr = none)
    (hn : inp.expertiseNumber = some n) (hne : n ≠ "")
    (hex : inp.expertName = some e) (he : e ≠ "")
    (hany : st.db.any (fun r => r.number == n) = false) :
    agentAddDocument cfg env inp st =
      ((true, "Додано в " ++ (agentAddFields env inp).sector ++ "/" ++ e ++ ": " ++
        basenameStr (agentAddDestDir cfg env inp) ++ " (тип: " ++
        (agentAddFields env inp).parsed.etype ++ ")"),
       ⟨st.db ++ [(⟨st.db.length + 1, (agentAddFields env inp).parsed.erddr, n,
          (agentAddFields env inp).parsed.date, (agentAddFields env inp).year,
          (agentAddFields env inp).parsed.etype, e, (agentAddFields env inp).sector,
          (agentAddFields env inp).parsed.sourceFile,
          agentAddDest cfg env inp⟩ : AgentRec)],
        fsWrite st.fs (agentAddDest cfg env inp) inp.srcContent⟩) := by
  have hfn := agentAddFields_number env inp n hn hne
  have hfe := agentAddFields_expert env inp e hex he
  have hsec := agentAddFields_sector_ne env inp
  simp only [agentAddDocument, hfn, hfe, hex, hmode, hco, hin, hany, optFalsyB]
  simp [he, hsec]

/-- Conflicting add: when some stored record already carries the
supplied number, `add_document` stops at the uniqueness pre-check with
the named already-exists message and an unchanged state. -/
theorem agentAdd_conflict (cfg : AgentCfg) (env : AgentEnv) (inp : AgentAddInput)
    (st : AgentState) (n e : String)
    (hn : inp.expertiseNumber = some n) (hne : n ≠ "")
    (hex : inp.expertName = some e) (he : e ≠ "")
    (hany : st.db.any (fun r => r.number == n) = true) :
    agentAddDocument cfg env inp st =
      ((false, "Експертиза №" ++ n ++ " вже існує в базі"), st) := by
  have hfn := agentAddFields_number env inp n hn hne
  have hfe := agentAddFields_expert env inp e hex he
  have hsec := agentAddFields_sector_ne env inp
  simp only [agentAddDocument, hfn, hfe, hex, hany, optFalsyB]
  simp [he, hsec]

/-- Failing-insert copy-mode add: the copy already happened, the insert
error is caught and reported, and no row is appended. -/
theorem agentAdd_insert_fail (cfg : AgentCfg) (env : AgentEnv) (inp : AgentAddInput)
    (st : AgentState) (n e errText : String)
    (hmode : cfg.indexOnlyMode = false) (hco : env.copyErr = none)
    (hin : env.insertErr = some errText)
    (hn : inp.expertiseNumber = some n) (hne : n ≠ "")
    (hex : inp.expertName = some e) (he : e ≠ "")
    (hany : st.db.any (fun r => r.number == n) = false) :
    agentAddDocument cfg env inp st =
      ((false, "Помилка збереження в базу: " ++ errText),
       ⟨st.db, fsWrite st.fs (agentAddDest cfg env inp) inp.srcContent⟩) := by
  have hfn := agentAddFields_number env inp n hn hne
  have hfe := agentAddFields_expert env inp e hex he
  have hsec := agentAddFields_sector_ne env inp
  simp only [agentAddDocument, hfn, hfe, hex, hmode, hco, hin, hany, optFalsyB]
  simp [he, hsec]

/-- C1: for a pair of add operations supplying the same non-empty
expertise number against an index not yet containing it, the first add
succeeds and persists exactly one record with that number, and the
second attempt fails at the uniqueness pre-check with the dedicated
already-exists message naming the duplicate number — not a generic
error, not silent success — leaving the whole state unchanged. -/
theorem C1_duplicate_number_conflict
    (cfg : AgentCfg) (env : AgentEnv) (inp1 inp2 : AgentAddInput) (st : AgentState)
    (n e1 e2 : String)
    (hmode : cfg.indexOnlyMode = false) (hco : env.copyErr = none)
    (hin : env.insertErr = none)
    (hn1 : inp1.expertiseNumber = some n) (hn2 : inp2.expertiseNumber = some n)
    (hne : n ≠ "")
    (hex1 : inp1.expertName = some e1) (he1 : e1 ≠ "")
    (hex2 : inp2.expertName = some e2) (he2 : e2 ≠ "")
    (hfresh : ∀ r ∈ st.db, r.number ≠ n) :
    (agentAddDocument cfg env inp1 st).1.1 = true ∧
    ((agentAddDocument cfg env inp1 st).2.db.filter
      (fun r => r.number == n)).length = 1 ∧
    agentAddDocument cfg env inp2 (agentAddDocument cfg env inp1 st).2 =
      ((false, "Експертиза №" ++ n ++ " вже існує в базі"),
       (agentAddDocument cfg env inp1 st).2) := by
  have h1 := agentAdd_success cfg env inp1 st n e1 hmode hco hin hn1 hne hex1 he1
    (any_number_false _ _ hfresh)
  refine ⟨by rw [h1], ?_, ?_⟩
  · rw [h1]
    simp only [List.filter_append, filter_number_nil _ _ hfresh]
    simp
  · have hany2 : ((agentAddDocument cfg env inp1 st).2.db).any
        (fun r => r.number == n) = true := by
      rw [h1]
      simp [List.any_append]
    exact agentAdd_conflict cfg env inp2 _ n e2 hn2 hne hex2 he2 hany2

/-- C1 witness: two concrete adds with number "10/23" on an empty
index; the first succeeds with exactly one row, the second is the
named conflict. -/
theorem C1_witness :
    (agentAddDocument ⟨"archive", none, false⟩ ⟨2025, "20250101_000000", true, none, none⟩
      ⟨"in/a.docx", 1, "текст", some "балісти", some "Петренко", some 2023, some "10/23"⟩
      ⟨[], []⟩).1.1 = true ∧
    ((agentAddDocument ⟨"archive", none, false⟩ ⟨2025, "20250101_000000", true, none, none⟩
      ⟨"in/a.docx", 1, "текст", some "балісти", some "Петренко", some 2023, some "10/23"⟩
      ⟨[], []⟩).2.db.filter (fun r => r.number == "10/23")).length = 1 ∧
    agentAddDocument ⟨"archive", none, false⟩ ⟨2025, "20250101_000000", true, none, none⟩
      ⟨"in/b.docx", 2, "текст", some "балісти", some "Петренко", some 2023, some "10/23"⟩
      (agentAddDocument ⟨"archive", none, false⟩ ⟨2025, "20250101_000000", true, none, none⟩
        ⟨"in/a.docx", 1, "текст", some "балісти", some "Петренко", some 2023, some "10/23"⟩
        ⟨[], []⟩).2 =
      ((false, "Експертиза №" ++ "10/23" ++ " вже існує в базі"),
       (agentAddDocument ⟨"archive", none, false⟩ ⟨2025, "20250101_000000", true, none, none⟩
         ⟨"in/a.docx", 1, "текст", some "балісти", some "Петренко", some 2023, some "10/23"⟩
         ⟨[], []⟩).2) :=
  C1_duplicate_number_conflict _ _ _ _ _ "10/23" "Петренко" "Петренко"
    rfl rfl rfl rfl rfl (by decide) rfl (by decide) rfl (by decide)
    (by intro r hr; simp at hr)

/-- C10: in copy mode the file is copied into the archive before the
INSERT is attempted; when the insert fails, `add_document` returns the
storage failure, the index is unchanged, and the already-copied file
remains in the archive at the destination path — a failed add is not
atomic with respect to the file system. -/
theorem C10_failed_insert_leaves_copied_file
    (cfg : AgentCfg) (env : AgentEnv) (inp : AgentAddInput) (st : AgentState)
    (n e errText : String)
    (hmode : cfg.indexOnlyMode = false) (hco : env.copyErr = none)
    (hin : env.insertErr = some errText)
    (hn : inp.expertiseNumber = some n) (hne : n ≠ "")
    (hex : inp.expertName = some e) (he : e ≠ "")
    (hfresh : ∀ r ∈ st.db, r.number ≠ n) :
    (agentAddDocument cfg env inp st).1 =
      (false, "Помилка збереження в базу: " ++ errText) ∧
    (agentAddDocument cfg env inp st).2.db = st.db ∧
    fsLookup (agentAddDocument cfg env inp st).2.fs (agentAddDest cfg env inp) =
      some inp.srcContent := by
  have h := agentAdd_insert_fail cfg env inp st n e errText hmode hco hin hn hne
    hex he (any_number_false _ _ hfresh)
  refine ⟨by rw [h], by rw [h], ?_⟩
  rw [h]
  exact fsLookup_fsWrite_self _ _ _

/-- C10 witness: a concrete failed insert ("disk full") leaves the
copied file in the archive with no index row. -/
theorem C10_witness :
    (agentAddDocument ⟨"archive", none, false⟩ ⟨2025, "stamp", true, none, some "disk full"⟩
      ⟨"in/a.docx", 1, "текст", some "балісти", some "Петренко", some 2023, some "10/23"⟩
      ⟨[], []⟩).1 = (false, "Помилка збереження в базу: " ++ "disk full") ∧
    (agentAddDocument ⟨"archive", none, false⟩ ⟨2025, "stamp", true, none, some "disk full"⟩
      ⟨"in/a.docx", 1, "текст", some "балісти", some "Петренко", some 2023, some "10/23"⟩
      ⟨[], []⟩).2.db = [] ∧
    fsLookup (agentAddDocument ⟨"archive", none, false⟩
      ⟨2025, "stamp", true, none, some "disk full"⟩
      ⟨"in/a.docx", 1, "текст", some "балісти", some "Петренко", some 2023, some "10/23"⟩
      ⟨[], []⟩).2.fs
      (agentAddDest ⟨"archive", none, false⟩ ⟨2025, "stamp", true, none, some "disk full"⟩
        ⟨"in/a.docx", 1, "текст", some "балісти", some "Петренко", some 2023, some "10/23"⟩) =
      some 1 :=
  C10_failed_insert_leaves_copied_file _ _ _ _ "10/23" "Петренко" "disk full"
    rfl rfl rfl rfl (by decide) rfl (by decide) (by intro r hr; simp at hr)

end ForensicArchive
